import Mathlib

/-!
Shallow embedding of the Jugaad AI action reconciliation core (the reducer in
src/App.tsx together with the bill-calculator cart operations): data model,
item resolution, inventory mutation, cart aggregation, sale and expense
recording, and the action dispatcher.  JavaScript numbers are modelled as
rationals, optional numeric fields use the value 0 for "absent" because the
source only ever tests them for truthiness, and code paths that would throw a
TypeError are modelled with Except.
-/

attribute [local semireducible] Rat.add Rat.sub Rat.mul Rat.inv Rat.ofScientific

structure InventoryItem where
  id : String
  name : String
  quantity : ℚ
  unit : String
  price : ℚ
  expiryDate : Option String
  image : Option String
deriving DecidableEq

instance : Inhabited InventoryItem := ⟨⟨"", "", 0, "", 0, none, none⟩⟩

/-- A payload line / cart line: `{name, quantity, changeType?, price?}`.
`price = 0` encodes an absent price and `changeType = ""` an absent changeType,
since the source only uses `||` / `===` on them. -/
structure SaleItem where
  name : String
  quantity : ℚ
  price : ℚ
  changeType : String
deriving DecidableEq

structure SaleRecord where
  id : String
  date : String
  items : List SaleItem
  totalAmount : ℚ
deriving DecidableEq

structure ExpenseRecord where
  id : String
  description : String
  amount : ℚ
  date : String
deriving DecidableEq

structure AppState where
  inventory : List InventoryItem
  sales : List SaleRecord
  expenses : List ExpenseRecord
  cart : List SaleItem
  activeTab : String
deriving DecidableEq

instance {ε α : Type} [DecidableEq ε] [DecidableEq α] : DecidableEq (Except ε α)
  | Except.error x, Except.error y =>
    if h : x = y then Decidable.isTrue (by rw [h])
    else Decidable.isFalse (fun c => h (Except.error.inj c))
  | Except.error _, Except.ok _ => Decidable.isFalse (fun c => Except.noConfusion c)
  | Except.ok _, Except.error _ => Decidable.isFalse (fun c => Except.noConfusion c)
  | Except.ok x, Except.ok y =>
    if h : x = y then Decidable.isTrue (by rw [h])
    else Decidable.isFalse (fun c => h (Except.ok.inj c))

/-- JavaScript `a || b` on numbers (0 is the only falsy rational). -/
def jsOr (a b : ℚ) : ℚ := if a = 0 then b else a

/-- Floor of a rational, as floor division of numerator by denominator. -/
def ratFloor (q : ℚ) : ℤ := Int.fdiv q.num q.den

/-- JavaScript `Math.round`: floor of x + 1/2. -/
def jsRound (q : ℚ) : ℚ := (ratFloor (q + 1/2) : ℤ)

/-- `needle` starts `haystack` (first argument is the needle). -/
def charsStartWith : List Char → List Char → Bool
  | [], _ => true
  | _ :: _, [] => false
  | a :: as, b :: bs => a == b && charsStartWith as bs

/-- `needle` occurs contiguously inside `haystack`. -/
def charsContain (needle : List Char) : List Char → Bool
  | [] => charsStartWith needle []
  | b :: bs => charsStartWith needle (b :: bs) || charsContain needle bs

/-- JavaScript `s.toLowerCase().includes(q.toLowerCase())`. -/
def includesCI (s q : String) : Bool :=
  charsContain (q.data.map Char.toLower) (s.data.map Char.toLower)

/-- Description of the single aggregated restock expense. -/
def restockDescription (n : Nat) : String := "Restock: " ++ (toString n) ++ " items"

/-- The single aggregated expense record posted by an UPDATE_INVENTORY /
RESTOCK dispatch (App.tsx 289-296): `Math.round` of the accumulated cost. -/
def restockExpense (now : String) (n : Nat) (total : ℚ) : ExpenseRecord :=
  { id := now, description := restockDescription n, amount := jsRound total, date := now }

/-- The bidirectional matcher of `handleAiAction` (App.tsx line 249):
`i.name.toLowerCase().includes(q.toLowerCase()) || q.toLowerCase().includes(i.name.toLowerCase())`. -/
def invMatch (q : String) (i : InventoryItem) : Bool :=
  includesCI i.name q || includesCI q i.name

/-- The one-directional matcher of `updateInventoryAndRecordSale` (line 183)
and `processCartItems` (line 233): `i.name.toLowerCase().includes(q.toLowerCase())`. -/
def invMatchOneWay (q : String) (i : InventoryItem) : Bool :=
  includesCI i.name q

/-- The three change semantics applied to an existing item (App.tsx 254-264):
returns (newQuantity, quantityAdded). -/
def applyChange (i : InventoryItem) (line : SaleItem) : ℚ × ℚ :=
  if line.changeType = "subtract" then (max 0 (i.quantity - line.quantity), 0)
  else if line.changeType = "set" then
    (line.quantity, if line.quantity > i.quantity then line.quantity - i.quantity else 0)
  else (i.quantity + line.quantity, line.quantity)

/-- Expiry assigned to items created by the dispatcher (`daysAgo(-180)`). -/
def defaultNewExpiry : String := "daysAgo(-180)"

/-- Placeholder image assigned to items created by the dispatcher. -/
def placeholderImage : String :=
  "https://images.unsplash.com/photo-1576618148400-f54bed99fcf8?w=300&q=80"

/-- The item pushed for an unresolved non-subtract line (App.tsx 268-276). -/
def newInventoryItem (now : String) (line : SaleItem) : InventoryItem :=
  { id := now, name := line.name, quantity := line.quantity, unit := "unit",
    price := jsOr line.price 0, expiryDate := some defaultNewExpiry,
    image := some placeholderImage }

/-- `findIndex` + in-place mutation of the first bidirectional match
(App.tsx 249-264 and the cost contribution of 281-284), rendered as a first
match recursion: returns the updated list and this line's cost contribution,
or `none` when no item matches. -/
def applyLineToList (line : SaleItem) : List InventoryItem → Option (List InventoryItem × ℚ)
  | [] => none
  | i :: rest =>
    if invMatch line.name i then
      some ({ i with quantity := (applyChange i line).1 } :: rest,
            if (applyChange i line).2 > 0 then (applyChange i line).2 * (i.price * (8/10)) else 0)
    else
      match applyLineToList line rest with
      | some (rest2, c) => some (i :: rest2, c)
      | none => none

/-- One `data.items.forEach` iteration of the UPDATE_INVENTORY / RESTOCK
branch: threads (inventory, totalOutcome). -/
def applyInventoryLine (now : String) (st : List InventoryItem × ℚ) (line : SaleItem) :
    List InventoryItem × ℚ :=
  match applyLineToList line st.1 with
  | some (inv2, c) => (inv2, st.2 + c)
  | none =>
    if line.changeType = "subtract" then st
    else (st.1 ++ [newInventoryItem now line],
          st.2 + (if line.quantity > 0 then line.quantity * (jsOr line.price 50 * (8/10)) else 0))

/-- `findIndex` + in-place decrement of the first one-way match inside
`updateInventoryAndRecordSale` (App.tsx 182-189): returns the updated list and
the resolved price, or `none` when the name resolves to no item. -/
def sellLine (soldItem : SaleItem) : List InventoryItem → Option (List InventoryItem × ℚ)
  | [] => none
  | i :: rest =>
    if invMatchOneWay soldItem.name i then
      some ({ i with quantity := max 0 (i.quantity - soldItem.quantity) } :: rest,
            jsOr soldItem.price i.price)
    else
      match sellLine soldItem rest with
      | some (rest2, p) => some (i :: rest2, p)
      | none => none

/-- The `itemsToSell.forEach` loop of `updateInventoryAndRecordSale`: returns
(final inventory, accumulated total, the item list with resolved prices
written back into it). -/
def sellItems (inv : List InventoryItem) : List SaleItem → List InventoryItem × ℚ × List SaleItem
  | [] => (inv, 0, [])
  | soldItem :: rest =>
    match sellLine soldItem inv with
    | some (inv2, p) =>
      let r := sellItems inv2 rest
      (r.1, p * soldItem.quantity + r.2.1, { soldItem with price := p } :: r.2.2)
    | none =>
      let r := sellItems inv rest
      (r.1, r.2.1, soldItem :: r.2.2)

/-- `updateInventoryAndRecordSale` (App.tsx 178-200): decrements inventory and
builds the SaleRecord, whose total falls back to `reduce` over the (mutated)
item objects when the accumulated total is 0. -/
def updateInventoryAndRecordSale (now : String) (inv : List InventoryItem)
    (itemsToSell : List SaleItem) : List InventoryItem × SaleRecord :=
  let r := sellItems inv itemsToSell
  (r.1, { id := now, date := now, items := r.2.2,
          totalAmount := jsOr r.2.1 (r.2.2.foldl (fun a b => a + b.price * b.quantity) 0) })

/-- `processCartItems` (App.tsx 229-240): missing payload degrades to an empty
list; each line's price resolves as `invItem?.price || item.price || 0`. -/
def processCartItems (inv : List InventoryItem) (dataItems : Option (List SaleItem)) :
    List SaleItem :=
  match dataItems with
  | none => []
  | some items => items.map fun item =>
      { name := item.name, quantity := item.quantity,
        price := jsOr (match inv.find? (invMatchOneWay item.name) with
                       | some i => i.price
                       | none => 0) (jsOr item.price 0),
        changeType := "" }

/-- In-place `existing.quantity += item.quantity` on the first line with the
given name (the cart merge of App.tsx 305-312). -/
def bumpFirst (nm : String) (dq : ℚ) : List SaleItem → List SaleItem
  | [] => []
  | p :: rest =>
    if p.name = nm then { p with quantity := p.quantity + dq } :: rest
    else p :: bumpFirst nm dq rest

/-- The cart merge loop of ADD_TO_CART / UPDATE_CART / VIEW_BILL
(App.tsx 303-314): add quantities to an existing line, else append. -/
def mergeCart (cart : List SaleItem) : List SaleItem → List SaleItem
  | [] => cart
  | item :: rest =>
    if cart.any (fun p => p.name == item.name) then
      mergeCart (bumpFirst item.name item.quantity cart) rest
    else
      mergeCart (cart ++ [item]) rest

/-- `updateQty` of the bill calculator: a delta that would bring the quantity
to 0 or below leaves the line unchanged. -/
def updateQty (cart : List SaleItem) (nm : String) (delta : ℚ) : List SaleItem :=
  cart.map fun item =>
    if item.name = nm then
      if item.quantity + delta ≤ 0 then item
      else { item with quantity := item.quantity + delta }
    else item

/-- `addToCart` of the bill calculator. -/
def addToCart (cart : List SaleItem) (item : InventoryItem) (qtyToAdd : ℚ) : List SaleItem :=
  if cart.any (fun i => i.name == item.name) then
    cart.map fun i =>
      if i.name = item.name then { i with quantity := i.quantity + qtyToAdd } else i
  else cart ++ [{ name := item.name, quantity := qtyToAdd, price := item.price, changeType := "" }]

/-- `removeItem` of the bill calculator. -/
def removeItem (cart : List SaleItem) (nm : String) : List SaleItem :=
  cart.filter fun i => i.name != nm

/-- `handleQuickRestock` walk over the inventory (App.tsx 202-218): every item
whose name is exactly `itemName` gains 10 units and posts one expense of
`price * 0.8 * 10`. -/
def quickRestockGo (now itemName : String) :
    List InventoryItem → List InventoryItem × List ExpenseRecord
  | [] => ([], [])
  | i :: rest =>
    let r := quickRestockGo now itemName rest
    if i.name = itemName then
      ({ i with quantity := i.quantity + 10 } :: r.1,
       { id := now, description := "Quick Restock: " ++ i.name,
         amount := i.price * (8/10) * 10, date := now } :: r.2)
    else (i :: r.1, r.2)

def handleQuickRestock (now itemName : String) (inv : List InventoryItem)
    (expenses : List ExpenseRecord) : List InventoryItem × List ExpenseRecord :=
  let r := quickRestockGo now itemName inv
  (r.1, expenses ++ r.2)

/-- `handleAiAction` (App.tsx 242-336).  The UPDATE_INVENTORY / RESTOCK and
RECORD_SALE branches dereference `data.items` without a guard, so a missing
items payload throws (modelled as `Except.error`). -/
def handleAiAction (now : String) (st : AppState) (actionType : String)
    (dataItems : Option (List SaleItem)) : Except Unit AppState :=
  if actionType = "UPDATE_INVENTORY" ∨ actionType = "RESTOCK" then
    match dataItems with
    | none => Except.error ()
    | some items =>
      let r := items.foldl (applyInventoryLine now) (st.inventory, 0)
      let expenses2 := if r.2 > 0 then
          st.expenses ++ [restockExpense now items.length r.2]
        else st.expenses
      Except.ok { st with inventory := r.1, expenses := expenses2 }
  else if actionType = "RECORD_SALE" then
    match dataItems with
    | none => Except.error ()
    | some items =>
      let r := updateInventoryAndRecordSale now st.inventory items
      Except.ok { st with inventory := r.1, sales := st.sales ++ [r.2] }
  else if actionType = "ADD_TO_CART" ∨ actionType = "UPDATE_CART" then
    Except.ok { st with cart := mergeCart st.cart (processCartItems st.inventory dataItems) }
  else if actionType = "VIEW_BILL" ∨ actionType = "NAVIGATE_BILL" then
    Except.ok { st with cart := mergeCart st.cart (processCartItems st.inventory dataItems),
                        activeTab := "calculator" }
  else if actionType = "COMPLETE_SALE" then
    let r := updateInventoryAndRecordSale now st.inventory
      (processCartItems st.inventory dataItems)
    Except.ok { st with inventory := r.1, sales := st.sales ++ [r.2] }
  else Except.ok st

/-- `handleSaleComplete` (App.tsx 224-227): record the sale and clear the cart. -/
def handleSaleComplete (now : String) (st : AppState) (items : List SaleItem) : AppState :=
  let r := updateInventoryAndRecordSale now st.inventory items
  { st with inventory := r.1, sales := st.sales ++ [r.2], cart := [] }

/-- Committing the current cart through the checkout path. -/
def commitCart (now : String) (st : AppState) : AppState :=
  handleSaleComplete now st st.cart

/-- An externally triggered state transition: a dispatched action record or a
quick restock. -/
inductive AppEvent where
  | ai (actionType : String) (dataItems : Option (List SaleItem))
  | quickRestock (itemName : String)

/-- Apply one event; a thrown dispatch leaves the state unchanged. -/
def stepEvent (now : String) (st : AppState) : AppEvent → AppState
  | AppEvent.ai ty d =>
    match handleAiAction now st ty d with
    | Except.ok st2 => st2
    | Except.error _ => st
  | AppEvent.quickRestock nm =>
    let r := handleQuickRestock now nm st.inventory st.expenses
    { st with inventory := r.1, expenses := r.2 }

def runEvents (now : String) (st : AppState) (es : List AppEvent) : AppState :=
  es.foldl (stepEvent now) st

/-- An event whose UPDATE_INVENTORY / RESTOCK lines all carry a nonnegative
quantity. -/
def goodEvent : AppEvent → Bool
  | AppEvent.ai ty d =>
    if ty = "UPDATE_INVENTORY" ∨ ty = "RESTOCK" then
      (d.getD []).all fun l => decide (0 ≤ l.quantity)
    else true
  | AppEvent.quickRestock _ => true

/-- The price the cost estimator uses for a line: the stored price of the
first (bidirectional) match, else the line price or the 50 placeholder. -/
def priceUsed (inv : List InventoryItem) (line : SaleItem) : ℚ :=
  match inv.find? (invMatch line.name) with
  | some i => i.price
  | none => jsOr line.price 50

/-- The quantity counted as added by a line for costing purposes. -/
def quantityDelta (inv : List InventoryItem) (line : SaleItem) : ℚ :=
  match inv.find? (invMatch line.name) with
  | some i => (applyChange i line).2
  | none => if line.changeType = "subtract" then 0 else line.quantity

/-- The aggregated cost of one action record: the sum of
`priceUsed * 0.8 * quantityDelta` over the lines with a positive delta,
each line evaluated against the inventory left by the previous lines. -/
def aggregatedCost (now : String) (inv : List InventoryItem) : List SaleItem → ℚ
  | [] => 0
  | l :: ls =>
    (if quantityDelta inv l > 0 then quantityDelta inv l * (priceUsed inv l * (8/10)) else 0) +
    aggregatedCost now (applyInventoryLine now (inv, 0) l).1 ls

/-- Two inventories that agree on names and prices position by position
(sale resolution only reads those two fields). -/
def SameCatalog : List InventoryItem → List InventoryItem → Prop :=
  List.Forall₂ fun a b => a.name = b.name ∧ a.price = b.price

/-- Sum of the resolved contributions of a sale line list against a fixed
inventory: a line that resolves contributes `(line price || inventory price)
* quantity`, an unresolved line contributes nothing. -/
def resolvedSum (inv : List InventoryItem) : List SaleItem → ℚ
  | [] => 0
  | l :: ls =>
    (match inv.find? (invMatchOneWay l.name) with
     | some i => jsOr l.price i.price * l.quantity
     | none => 0) + resolvedSum inv ls

/-- The sale lines with resolved prices written back (the in-place price
mutation of `updateInventoryAndRecordSale`), against a fixed inventory. -/
def resolveItems (inv : List InventoryItem) : List SaleItem → List SaleItem
  | [] => []
  | l :: ls =>
    (match inv.find? (invMatchOneWay l.name) with
     | some i => { l with price := jsOr l.price i.price }
     | none => l) :: resolveItems inv ls

/-- Modelled from the claim wording for C2 (not from the source): every cart
line contributes `price * quantity` where the price is the resolved inventory
price when the name resolves and the line's own price otherwise. -/
def claimTotalFromSpec (inv : List InventoryItem) (cart : List SaleItem) : ℚ :=
  cart.foldl (fun a l =>
    a + (match inv.find? (invMatchOneWay l.name) with
         | some i => i.price
         | none => l.price) * l.quantity) 0

/-- The sale record produced by committing a cart, phrased against the fixed
pre-commit inventory: items with resolved prices written back, and a total
that is the resolved sum unless that sum is 0, in which case the fallback
`reduce` over the written-back lines. -/
def committedSale (now : String) (inv : List InventoryItem) (cart : List SaleItem) : SaleRecord :=
  { id := now, date := now, items := resolveItems inv cart,
    totalAmount := jsOr (resolvedSum inv cart)
      ((resolveItems inv cart).foldl (fun a b => a + b.price * b.quantity) 0) }

/-- The cart well-formedness invariant: at most one line per name, and every
retained line has a positive quantity. -/
def cartWF (cart : List SaleItem) : Prop :=
  (cart.map fun l => l.name).Nodup ∧ ∀ l ∈ cart, 0 < l.quantity

instance (cart : List SaleItem) : Decidable (cartWF cart) := by
  unfold cartWF
  infer_instance

/-- Total quantity carried by the lines with a given name. -/
def qtyByName (nm : String) : List SaleItem → ℚ
  | [] => 0
  | l :: ls => (if l.name = nm then l.quantity else 0) + qtyByName nm ls

/-- A cart-mutating operation: the AI cart merge (ADD_TO_CART / UPDATE_CART /
VIEW_BILL), the bill calculator's quantity update, add and remove, and the
clear performed on sale completion or logout. -/
inductive CartEvent where
  | merge (items : List SaleItem)
  | update (nm : String) (d : ℚ)
  | add (it : InventoryItem) (q : ℚ)
  | remove (nm : String)
  | clear

/-- Apply one cart operation to a cart. -/
def applyCartEvent (cart : List SaleItem) : CartEvent → List SaleItem
  | CartEvent.merge items => mergeCart cart items
  | CartEvent.update nm d => updateQty cart nm d
  | CartEvent.add it q => addToCart cart it q
  | CartEvent.remove nm => removeItem cart nm
  | CartEvent.clear => []

/-- A cart operation whose every merged line quantity, or added quantity, is
positive. -/
def goodCartEvent : CartEvent → Bool
  | CartEvent.merge items => items.all fun l => decide (0 < l.quantity)
  | CartEvent.add _ q => decide (0 < q)
  | _ => true

/-- Run a sequence of cart operations. -/
def runCartEvents (cart : List SaleItem) (es : List CartEvent) : List SaleItem :=
  es.foldl applyCartEvent cart

/-- Sample catalog item: Amul Milk, quantity 5, price 28. -/
def invAmul : InventoryItem := ⟨"6", "Amul Milk", 5, "packet", 28, none, none⟩

/-- Sample catalog item: Maggi Noodles, quantity 8, price 14. -/
def invMaggi : InventoryItem := ⟨"2", "Maggi Noodles", 8, "packet", 14, none, none⟩

/-- Sample catalog item: Bread, quantity 5, price 40. -/
def invBread : InventoryItem := ⟨"7", "Bread", 5, "loaf", 40, none, none⟩

/-- A single-item state used to exercise the dispatcher on concrete input. -/
def stMilk : AppState := ⟨[⟨"1", "Milk", 5, "packet", 28, none, none⟩], [], [], [], "calculator"⟩

/-- State holding the worked example cart of the specification. -/
def stExampleCart : AppState :=
  ⟨[invAmul, invBread], [], [], [⟨"Amul Milk", 2, 28, ""⟩, ⟨"Bread", 1, 40, ""⟩], "calculator"⟩

/-- State whose cart mixes a resolvable and an unresolvable line. -/
def stMixedCart : AppState :=
  ⟨[invAmul], [], [], [⟨"Amul Milk", 2, 28, ""⟩, ⟨"Zzz", 1, 40, ""⟩], "calculator"⟩

/-- State whose cart line carries a price that differs from the stored one. -/
def stPriceCart : AppState :=
  ⟨[invAmul], [], [], [⟨"Amul Milk", 2, 30, ""⟩], "calculator"⟩

/-! ### Resolution helper lemmas -/

theorem applyLineToList_none_of_nomatch (line : SaleItem) :
    ∀ inv : List InventoryItem, (∀ i ∈ inv, invMatch line.name i = false) →
      applyLineToList line inv = none
  | [], _ => rfl
  | i :: rest, h => by
    have hi : invMatch line.name i = false := h i (List.mem_cons_self i rest)
    have hr := applyLineToList_none_of_nomatch line rest
      (fun j hj => h j (List.mem_cons_of_mem i hj))
    simp [applyLineToList, hi, hr]

theorem applyLineToList_append (line : SaleItem) (it : InventoryItem)
    (post : List InventoryItem) (hit : invMatch line.name it = true) :
    ∀ pre : List InventoryItem, (∀ j ∈ pre, invMatch line.name j = false) →
      applyLineToList line (pre ++ it :: post) =
        some (pre ++ { it with quantity := (applyChange it line).1 } :: post,
          if (applyChange it line).2 > 0 then
            (applyChange it line).2 * (it.price * (8/10)) else 0)
  | [], _ => by simp [applyLineToList, hit]
  | j :: pre, h => by
    have hj : invMatch line.name j = false := h j (List.mem_cons_self j pre)
    have hr := applyLineToList_append line it post hit pre
      (fun k hk => h k (List.mem_cons_of_mem j hk))
    simp [applyLineToList, hj, hr]

theorem sellLine_none_of_nomatch (line : SaleItem) :
    ∀ inv : List InventoryItem, (∀ i ∈ inv, invMatchOneWay line.name i = false) →
      sellLine line inv = none
  | [], _ => rfl
  | i :: rest, h => by
    have hi : invMatchOneWay line.name i = false := h i (List.mem_cons_self i rest)
    have hr := sellLine_none_of_nomatch line rest
      (fun j hj => h j (List.mem_cons_of_mem i hj))
    simp [sellLine, hi, hr]

theorem sellLine_append (line : SaleItem) (it : InventoryItem)
    (post : List InventoryItem) (hit : invMatchOneWay line.name it = true) :
    ∀ pre : List InventoryItem, (∀ j ∈ pre, invMatchOneWay line.name j = false) →
      sellLine line (pre ++ it :: post) =
        some (pre ++ { it with quantity := max 0 (it.quantity - line.quantity) } :: post,
          jsOr line.price it.price)
  | [], _ => by simp [sellLine, hit]
  | j :: pre, h => by
    have hj : invMatchOneWay line.name j = false := h j (List.mem_cons_self j pre)
    have hr := sellLine_append line it post hit pre
      (fun k hk => h k (List.mem_cons_of_mem j hk))
    simp [sellLine, hj, hr]

/-! ### Dispatch equations -/

theorem handleAiAction_update_inventory (now : String) (st : AppState) (items : List SaleItem) :
    handleAiAction now st "UPDATE_INVENTORY" (some items) =
      Except.ok { st with
        inventory := (items.foldl (applyInventoryLine now) (st.inventory, 0)).1,
        expenses := if (items.foldl (applyInventoryLine now) (st.inventory, 0)).2 > 0 then
            st.expenses ++
              [restockExpense now items.length
                (items.foldl (applyInventoryLine now) (st.inventory, 0)).2]
          else st.expenses } := rfl

theorem handleAiAction_restock (now : String) (st : AppState) (items : List SaleItem) :
    handleAiAction now st "RESTOCK" (some items) =
      handleAiAction now st "UPDATE_INVENTORY" (some items) := rfl

/-! ### C3: change-type semantics on an existing item -/

/-- C3 (confirmed): on an existing item with prior quantity q, changeType
"subtract" yields (max 0 (q - requested), delta 0), "set" yields exactly the
requested quantity with delta max 0 (requested - q), and any other changeType
(the default "add") yields q + requested with delta equal to the requested
quantity. -/
theorem c3_change_semantics (i : InventoryItem) (line : SaleItem) :
    (line.changeType = "subtract" →
      applyChange i line = (max 0 (i.quantity - line.quantity), 0)) ∧
    (line.changeType = "set" →
      applyChange i line = (line.quantity, max 0 (line.quantity - i.quantity))) ∧
    (line.changeType ≠ "subtract" → line.changeType ≠ "set" →
      applyChange i line = (i.quantity + line.quantity, line.quantity)) := by
  refine ⟨fun h => ?_, fun h => ?_, fun h1 h2 => ?_⟩
  · simp [applyChange, h]
  · have hmax : (if line.quantity > i.quantity then line.quantity - i.quantity else 0) =
        max 0 (line.quantity - i.quantity) := by
      rcases le_or_lt line.quantity i.quantity with h1 | h1
      · rw [if_neg (not_lt.2 h1), eq_comm, max_eq_left (sub_nonpos.2 h1)]
      · rw [if_pos h1, eq_comm, max_eq_right (sub_nonneg.2 h1.le)]
    simp [applyChange, h, hmax]
  · simp [applyChange, h1, h2]

/-- Witness for c3_change_semantics: a concrete "set" from quantity 5 up to 7
yields new quantity 7 and costing delta 2. -/
theorem c3_change_semantics_witness :
    applyChange invAmul ⟨"Amul Milk", 7, 0, "set"⟩ = (7, 2) := by
  have h := (c3_change_semantics invAmul ⟨"Amul Milk", 7, 0, "set"⟩).2.1 rfl
  rw [h]; decide

/-! ### C10: frame property of an existing-item update -/

/-- C10 (confirmed): a line that resolves to an existing item (first
bidirectional match, earlier items not matching) rewrites only that item's
quantity; its id, name, unit, price, expiryDate and image are untouched, the
rest of the inventory is untouched, and the cost contribution is computed
from the item's stored price, never from the payload price. -/
theorem c10_frame (now : String) (line : SaleItem) (pre post : List InventoryItem)
    (it : InventoryItem) (tot : ℚ)
    (hpre : ∀ j ∈ pre, invMatch line.name j = false)
    (hit : invMatch line.name it = true) :
    applyInventoryLine now (pre ++ it :: post, tot) line =
      (pre ++ { it with quantity := (applyChange it line).1 } :: post,
       tot + (if (applyChange it line).2 > 0 then
         (applyChange it line).2 * (it.price * (8/10)) else 0)) ∧
    ({ it with quantity := (applyChange it line).1 }).id = it.id ∧
    ({ it with quantity := (applyChange it line).1 }).name = it.name ∧
    ({ it with quantity := (applyChange it line).1 }).unit = it.unit ∧
    ({ it with quantity := (applyChange it line).1 }).price = it.price ∧
    ({ it with quantity := (applyChange it line).1 }).expiryDate = it.expiryDate ∧
    ({ it with quantity := (applyChange it line).1 }).image = it.image := by
  refine ⟨?_, rfl, rfl, rfl, rfl, rfl, rfl⟩
  unfold applyInventoryLine
  rw [applyLineToList_append line it post hit pre hpre]

/-- Witness for c10_frame: an UPDATE_INVENTORY line carrying price 99 for the
stored Amul Milk item (price 28) leaves the stored price at 28 and costs
against 28, not 99. -/
theorem c10_frame_witness :
    applyInventoryLine "t" ([invAmul], 0) ⟨"Amul Milk", 4, 99, ""⟩ =
      ([⟨"6", "Amul Milk", 9, "packet", 28, none, none⟩], 4 * (28 * (8/10))) := by
  have h := (c10_frame "t" ⟨"Amul Milk", 4, 99, ""⟩ [] [] invAmul 0
    (by decide) (by decide)).1
  rw [show ([invAmul], (0 : ℚ)) = (([] : List InventoryItem) ++ invAmul :: [], (0 : ℚ)) by rfl, h]
  decide

/-! ### C4: a line whose name resolves to no item -/

theorem applyLineToList_eq_none (line : SaleItem) (inv : List InventoryItem)
    (hno : ∀ i ∈ inv, invMatch line.name i = false) :
    applyLineToList line inv = none :=
  applyLineToList_none_of_nomatch line inv hno

/-- C4 (confirmed): a line that resolves to no inventory item and is not a
subtract appends a brand-new item with the requested quantity, the line's
price or the 0 placeholder as stored price, and the requested quantity as
the costing delta; an unresolved subtract is a no-op, and dispatching a
single such subtract line leaves the whole state (inventory and expenses
included) unchanged. -/
theorem c4_unresolved_line (now : String) (inv : List InventoryItem) (tot : ℚ)
    (line : SaleItem) (hno : ∀ i ∈ inv, invMatch line.name i = false) :
    (line.changeType ≠ "subtract" →
      applyInventoryLine now (inv, tot) line =
        (inv ++ [newInventoryItem now line],
         tot + (if line.quantity > 0 then
           line.quantity * (jsOr line.price 50 * (8/10)) else 0))) ∧
    (newInventoryItem now line).quantity = line.quantity ∧
    (newInventoryItem now line).price = jsOr line.price 0 ∧
    (line.changeType = "subtract" → applyInventoryLine now (inv, tot) line = (inv, tot)) ∧
    (line.changeType = "subtract" → ∀ st : AppState, st.inventory = inv →
      handleAiAction now st "UPDATE_INVENTORY" (some [line]) = Except.ok st) := by
  have hnone := applyLineToList_none_of_nomatch line inv hno
  refine ⟨fun h => ?_, rfl, rfl, fun h => ?_, fun h st hst => ?_⟩
  · simp [applyInventoryLine, hnone, h]
  · simp [applyInventoryLine, hnone, h]
  · have hstep : applyInventoryLine now (st.inventory, 0) line = (st.inventory, 0) := by
      rw [hst]
      simp [applyInventoryLine, hnone, h]
    rw [handleAiAction_update_inventory]
    simp only [List.foldl_cons, List.foldl_nil, hstep]
    norm_num

/-- Witness for c4_unresolved_line: adding 3 units of an unknown item priced
20 creates it and contributes 3 * 16 = 48 to the aggregated cost. -/
theorem c4_unresolved_line_witness :
    applyInventoryLine "t" ([invAmul], 0) ⟨"Zzz", 3, 20, ""⟩ =
      ([invAmul, ⟨"t", "Zzz", 3, "unit", 20, some defaultNewExpiry, some placeholderImage⟩], 48) := by
  have h := (c4_unresolved_line "t" [invAmul] 0 ⟨"Zzz", 3, 20, ""⟩ (by decide)).1 (by decide)
  rw [h]; decide

/-! ### C5: name resolution -/

/-- C5 counterexample: the query "Amul Milk 500ml" is matched by the claimed
bidirectional algorithm (the catalog name "Amul Milk" is a substring of the
query), yet the sale-recording resolver finds nothing for it, and the cart
price resolver leaves its price at 0 instead of the stored 28. -/
theorem c5_counterexample :
    invMatch "Amul Milk 500ml" invAmul = true ∧
    sellLine ⟨"Amul Milk 500ml", 2, 0, ""⟩ [invAmul] = none ∧
    processCartItems [invAmul] (some [⟨"Amul Milk 500ml", 1, 0, ""⟩]) =
      [⟨"Amul Milk 500ml", 1, 0, ""⟩] ∧
    (⟨"Amul Milk 500ml", 1, 0, ""⟩ : SaleItem).price ≠ invAmul.price := by
  refine ⟨by decide, by decide, by decide, by decide⟩

/-- C5 (corrected): only the inventory-update path resolves bidirectionally
(query inside catalog name or catalog name inside query, case-insensitively);
the sale-recording and cart-resolution paths test only whether the catalog
item's name contains the query.  On every path the first match in catalog
iteration order wins, and the worked examples hold: "milk" resolves to
"Amul Milk" and "noodles" to "Maggi Noodles". -/
theorem c5_resolution_amended (line : SaleItem) (it : InventoryItem)
    (pre post : List InventoryItem)
    (hpre1 : ∀ j ∈ pre, invMatchOneWay line.name j = false)
    (hit1 : invMatchOneWay line.name it = true)
    (hpre2 : ∀ j ∈ pre, invMatch line.name j = false)
    (hit2 : invMatch line.name it = true) :
    (∀ q i, invMatch q i = (includesCI i.name q || includesCI q i.name)) ∧
    (∀ q i, invMatchOneWay q i = includesCI i.name q) ∧
    sellLine line (pre ++ it :: post) =
      some (pre ++ { it with quantity := max 0 (it.quantity - line.quantity) } :: post,
        jsOr line.price it.price) ∧
    applyLineToList line (pre ++ it :: post) =
      some (pre ++ { it with quantity := (applyChange it line).1 } :: post,
        if (applyChange it line).2 > 0 then
          (applyChange it line).2 * (it.price * (8/10)) else 0) ∧
    sellLine ⟨"milk", 1, 0, ""⟩ [invAmul, invMaggi] =
      some ([⟨"6", "Amul Milk", 4, "packet", 28, none, none⟩, invMaggi], 28) ∧
    sellLine ⟨"noodles", 2, 0, ""⟩ [invAmul, invMaggi] =
      some ([invAmul, ⟨"2", "Maggi Noodles", 6, "packet", 14, none, none⟩], 14) ∧
    applyLineToList ⟨"milk", 4, 0, ""⟩ [invAmul, invMaggi] =
      some ([⟨"6", "Amul Milk", 9, "packet", 28, none, none⟩, invMaggi], 4 * (28 * (8/10))) ∧
    processCartItems [invAmul, invMaggi] (some [⟨"milk", 1, 0, ""⟩]) = [⟨"milk", 1, 28, ""⟩] := by
  refine ⟨fun q i => rfl, fun q i => rfl, ?_, ?_, by decide, by decide, by decide, by decide⟩
  · exact sellLine_append line it post hit1 pre hpre1
  · exact applyLineToList_append line it post hit2 pre hpre2

/-- Witness for c5_resolution_amended: resolving "milk" against the two-item
catalog decrements the first matching item, Amul Milk. -/
theorem c5_resolution_amended_witness :
    sellLine ⟨"milk", 1, 0, ""⟩ ([] ++ invAmul :: [invMaggi]) =
      some ([] ++ { invAmul with quantity := max 0 (invAmul.quantity - 1) } :: [invMaggi],
        jsOr 0 invAmul.price) :=
  (c5_resolution_amended ⟨"milk", 1, 0, ""⟩ invAmul [] [invMaggi]
    (by decide) (by decide) (by decide) (by decide)).2.2.1

/-! ### C6: one aggregated expense per action record -/

theorem applyInventoryLine_shift (now : String) (inv : List InventoryItem) (t : ℚ)
    (l : SaleItem) :
    applyInventoryLine now (inv, t) l =
      ((applyInventoryLine now (inv, 0) l).1, t + (applyInventoryLine now (inv, 0) l).2) := by
  rcases h : applyLineToList l inv with _ | ⟨inv2, c⟩
  · by_cases hs : l.changeType = "subtract"
    · simp [applyInventoryLine, h, hs]
    · simp [applyInventoryLine, h, hs]
  · simp [applyInventoryLine, h]

theorem applyLineToList_find (l : SaleItem) :
    ∀ inv : List InventoryItem,
      (applyLineToList l inv = none ∧ inv.find? (invMatch l.name) = none) ∨
      (∃ inv2 i, inv.find? (invMatch l.name) = some i ∧
        applyLineToList l inv = some (inv2,
          if (applyChange i l).2 > 0 then (applyChange i l).2 * (i.price * (8/10)) else 0))
  | [] => Or.inl ⟨rfl, rfl⟩
  | i :: rest => by
    by_cases hm : invMatch l.name i
    · refine Or.inr ⟨{ i with quantity := (applyChange i l).1 } :: rest, i, ?_, ?_⟩
      · rw [List.find?_cons_of_pos _ hm]
      · simp [applyLineToList, hm]
    · rcases applyLineToList_find l rest with ⟨h1, h2⟩ | ⟨inv2, i2, hf, ha⟩
      · refine Or.inl ⟨?_, ?_⟩
        · simp [applyLineToList, hm, h1]
        · rw [List.find?_cons_of_neg _ (by simpa using hm), h2]
      · refine Or.inr ⟨i :: inv2, i2, ?_, ?_⟩
        · rw [List.find?_cons_of_neg _ (by simpa using hm), hf]
        · simp [applyLineToList, hm, ha]

theorem applyInventoryLine_cost (now : String) (inv : List InventoryItem) (l : SaleItem) :
    (applyInventoryLine now (inv, 0) l).2 =
      if quantityDelta inv l > 0 then quantityDelta inv l * (priceUsed inv l * (8/10)) else 0 := by
  rcases applyLineToList_find l inv with ⟨h1, h2⟩ | ⟨inv2, i, hf, ha⟩
  · by_cases hs : l.changeType = "subtract"
    · simp [applyInventoryLine, h1, hs, quantityDelta, h2]
    · simp [applyInventoryLine, h1, hs, quantityDelta, priceUsed, h2]
  · simp [applyInventoryLine, ha, quantityDelta, priceUsed, hf]

theorem foldl_applyInventoryLine_snd (now : String) :
    ∀ (items : List SaleItem) (inv : List InventoryItem) (t : ℚ),
      (items.foldl (applyInventoryLine now) (inv, t)).2 = t + aggregatedCost now inv items
  | [], inv, t => by simp [aggregatedCost]
  | l :: ls, inv, t => by
    rw [List.foldl_cons, applyInventoryLine_shift,
      foldl_applyInventoryLine_snd now ls (applyInventoryLine now (inv, 0) l).1
        (t + (applyInventoryLine now (inv, 0) l).2)]
    rw [aggregatedCost, applyInventoryLine_cost, add_assoc]

/-- C6 (confirmed): dispatching an UPDATE_INVENTORY or RESTOCK record appends
exactly one ExpenseRecord — whose amount is the rounded aggregate of
`priceUsed * 0.8 * quantityDelta` over the lines with positive delta — when
that aggregate is positive, and appends nothing when the aggregate is 0;
never one record per line. -/
theorem c6_single_expense (now : String) (st : AppState) (items : List SaleItem) :
    handleAiAction now st "UPDATE_INVENTORY" (some items) =
      Except.ok { st with
        inventory := (items.foldl (applyInventoryLine now) (st.inventory, 0)).1,
        expenses := if aggregatedCost now st.inventory items > 0 then
            st.expenses ++
              [restockExpense now items.length (aggregatedCost now st.inventory items)]
          else st.expenses } ∧
    handleAiAction now st "RESTOCK" (some items) =
      handleAiAction now st "UPDATE_INVENTORY" (some items) ∧
    (∀ (inv : List InventoryItem) (l : SaleItem), (applyInventoryLine now (inv, 0) l).2 =
      if quantityDelta inv l > 0 then quantityDelta inv l * (priceUsed inv l * (8/10)) else 0) := by
  have hs := foldl_applyInventoryLine_snd now items st.inventory 0
  rw [zero_add] at hs
  exact ⟨by rw [handleAiAction_update_inventory, hs],
    handleAiAction_restock now st items, applyInventoryLine_cost now⟩

/-! ### C2: committing a sale -/

theorem sameCatalog_refl (inv : List InventoryItem) : SameCatalog inv inv :=
  List.forall₂_same.2 fun _ _ => ⟨rfl, rfl⟩

theorem sameCatalog_trans {a b c : List InventoryItem}
    (h1 : SameCatalog a b) (h2 : SameCatalog b c) : SameCatalog a c := by
  induction h1 generalizing c with
  | nil => cases h2; exact List.Forall₂.nil
  | cons hab _ ih =>
    cases h2 with
    | cons hbc t2 => exact List.Forall₂.cons ⟨hab.1.trans hbc.1, hab.2.trans hbc.2⟩ (ih t2)

theorem find?_sameCatalog (q : String) {inv1 inv2 : List InventoryItem}
    (h : SameCatalog inv1 inv2) :
    (inv1.find? (invMatchOneWay q) = none ∧ inv2.find? (invMatchOneWay q) = none) ∨
    (∃ i1 i2, inv1.find? (invMatchOneWay q) = some i1 ∧
      inv2.find? (invMatchOneWay q) = some i2 ∧ i1.name = i2.name ∧ i1.price = i2.price) := by
  induction h with
  | nil => exact Or.inl ⟨rfl, rfl⟩
  | @cons a b l1 l2 hab _ ih =>
    have hm : invMatchOneWay q a = invMatchOneWay q b := by
      unfold invMatchOneWay includesCI
      rw [hab.1]
    by_cases hma : invMatchOneWay q a = true
    · exact Or.inr ⟨a, b, List.find?_cons_of_pos _ hma,
        List.find?_cons_of_pos _ (hm ▸ hma), hab.1, hab.2⟩
    · have hmb : ¬ invMatchOneWay q b = true := fun hc => hma (hm ▸ hc)
      rcases ih with ⟨h1, h2⟩ | ⟨i1, i2, h1, h2, hn, hp⟩
      · exact Or.inl ⟨by rw [List.find?_cons_of_neg _ hma, h1],
          by rw [List.find?_cons_of_neg _ hmb, h2]⟩
      · exact Or.inr ⟨i1, i2, by rw [List.find?_cons_of_neg _ hma, h1],
          by rw [List.find?_cons_of_neg _ hmb, h2], hn, hp⟩

theorem resolvedSum_congr {inv1 inv2 : List InventoryItem} (h : SameCatalog inv1 inv2) :
    ∀ items : List SaleItem, resolvedSum inv1 items = resolvedSum inv2 items
  | [] => rfl
  | l :: ls => by
    have ih := resolvedSum_congr h ls
    rcases find?_sameCatalog l.name h with ⟨h1, h2⟩ | ⟨i1, i2, h1, h2, _, hp⟩
    · simp [resolvedSum, h1, h2, ih]
    · simp [resolvedSum, h1, h2, hp, ih]

theorem resolveItems_congr {inv1 inv2 : List InventoryItem} (h : SameCatalog inv1 inv2) :
    ∀ items : List SaleItem, resolveItems inv1 items = resolveItems inv2 items
  | [] => rfl
  | l :: ls => by
    have ih := resolveItems_congr h ls
    rcases find?_sameCatalog l.name h with ⟨h1, h2⟩ | ⟨i1, i2, h1, h2, _, hp⟩
    · simp [resolveItems, h1, h2, ih]
    · simp [resolveItems, h1, h2, hp, ih]

theorem sellLine_find (l : SaleItem) :
    ∀ inv : List InventoryItem,
      (sellLine l inv = none ∧ inv.find? (invMatchOneWay l.name) = none) ∨
      (∃ inv2 i, inv.find? (invMatchOneWay l.name) = some i ∧
        sellLine l inv = some (inv2, jsOr l.price i.price) ∧ SameCatalog inv2 inv)
  | [] => Or.inl ⟨rfl, rfl⟩
  | i :: rest => by
    by_cases hm : invMatchOneWay l.name i
    · refine Or.inr ⟨{ i with quantity := max 0 (i.quantity - l.quantity) } :: rest, i,
        List.find?_cons_of_pos _ hm, by simp [sellLine, hm], ?_⟩
      exact List.Forall₂.cons ⟨rfl, rfl⟩ (sameCatalog_refl rest)
    · rcases sellLine_find l rest with ⟨h1, h2⟩ | ⟨inv2, i2, hf, hsl, hsc⟩
      · exact Or.inl ⟨by simp [sellLine, hm, h1],
          by rw [List.find?_cons_of_neg _ (by simpa using hm), h2]⟩
      · refine Or.inr ⟨i :: inv2, i2,
          by rw [List.find?_cons_of_neg _ (by simpa using hm), hf],
          by simp [sellLine, hm, hsl], ?_⟩
        exact List.Forall₂.cons ⟨rfl, rfl⟩ hsc

theorem sellItems_spec :
    ∀ (items : List SaleItem) (inv : List InventoryItem),
      (sellItems inv items).2.1 = resolvedSum inv items ∧
      (sellItems inv items).2.2 = resolveItems inv items ∧
      SameCatalog (sellItems inv items).1 inv
  | [], inv => ⟨rfl, rfl, sameCatalog_refl inv⟩
  | l :: ls, inv => by
    rcases sellLine_find l inv with ⟨h1, h2⟩ | ⟨inv2, i, hf, hsl, hsc⟩
    · have ih := sellItems_spec ls inv
      refine ⟨?_, ?_, ?_⟩
      · simp [sellItems, h1, resolvedSum, h2, ih.1]
      · simp [sellItems, h1, resolveItems, h2, ih.2.1]
      · simp only [sellItems, h1]
        exact ih.2.2
    · have ih := sellItems_spec ls inv2
      refine ⟨?_, ?_, ?_⟩
      · simp [sellItems, hsl, resolvedSum, hf, ih.1, resolvedSum_congr hsc ls]
      · simp [sellItems, hsl, resolveItems, hf, ih.2.1, resolveItems_congr hsc ls]
      · simp only [sellItems, hsl]
        exact sameCatalog_trans ih.2.2 hsc

/-- C2 counterexample: with inventory [Amul Milk at 28] and cart
[(Amul Milk, 2, 28), (Zzz, 1, 40)], the committed SaleRecord totals 56 — the
unresolved Zzz line contributes nothing although the claim counts its
40 x 1 — and with cart [(Amul Milk, 2, 30)] the committed total is 60,
using the line's own price 30 rather than the claimed stored price 28. -/
theorem c2_counterexample :
    (commitCart "t" stMixedCart).sales.map (fun s => s.totalAmount) = [56] ∧
    claimTotalFromSpec stMixedCart.inventory stMixedCart.cart = 96 ∧
    (commitCart "t" stPriceCart).sales.map (fun s => s.totalAmount) = [60] ∧
    claimTotalFromSpec stPriceCart.inventory stPriceCart.cart = 56 ∧
    ((56 : ℚ) ≠ 96 ∧ (60 : ℚ) ≠ 56) := by decide

/-- C2 (corrected): committing the cart through checkout empties the cart and
appends exactly one SaleRecord; its totalAmount is the sum over the cart
lines that resolve (catalog name contains the line name, case-insensitively)
of (line price when nonzero, else resolved inventory price) x quantity —
unresolved lines contribute nothing — unless that sum is 0, in which case it
falls back to the sum of price x quantity over all written-back lines; the
worked example cart [(Amul Milk, 2, 28), (Bread, 1, 40)] still totals 96. -/
theorem c2_commit_amended (now : String) (st : AppState) :
    (commitCart now st).cart = [] ∧
    (commitCart now st).sales = st.sales ++ [committedSale now st.inventory st.cart] ∧
    (commitCart "t" stExampleCart).sales.map (fun s => s.totalAmount) = [96] := by
  have hspec := sellItems_spec st.cart st.inventory
  refine ⟨rfl, ?_, by decide⟩
  simp only [commitCart, handleSaleComplete, updateInventoryAndRecordSale, committedSale,
    hspec.1, hspec.2.1]

/-! ### More dispatch equations -/

theorem handleAiAction_update_inventory_none (now : String) (st : AppState) :
    handleAiAction now st "UPDATE_INVENTORY" none = Except.error () := rfl

theorem handleAiAction_restock_none (now : String) (st : AppState) :
    handleAiAction now st "RESTOCK" none = Except.error () := rfl

theorem handleAiAction_record_sale_none (now : String) (st : AppState) :
    handleAiAction now st "RECORD_SALE" none = Except.error () := rfl

theorem handleAiAction_record_sale (now : String) (st : AppState) (items : List SaleItem) :
    handleAiAction now st "RECORD_SALE" (some items) =
      Except.ok { st with
        inventory := (updateInventoryAndRecordSale now st.inventory items).1,
        sales := st.sales ++ [(updateInventoryAndRecordSale now st.inventory items).2] } := rfl

theorem handleAiAction_add_to_cart (now : String) (st : AppState) (d : Option (List SaleItem)) :
    handleAiAction now st "ADD_TO_CART" d =
      Except.ok { st with cart := mergeCart st.cart (processCartItems st.inventory d) } := rfl

theorem handleAiAction_update_cart (now : String) (st : AppState) (d : Option (List SaleItem)) :
    handleAiAction now st "UPDATE_CART" d =
      Except.ok { st with cart := mergeCart st.cart (processCartItems st.inventory d) } := rfl

theorem handleAiAction_view_bill (now : String) (st : AppState) (d : Option (List SaleItem)) :
    handleAiAction now st "VIEW_BILL" d =
      Except.ok { st with
        cart := mergeCart st.cart (processCartItems st.inventory d),
        activeTab := "calculator" } := rfl

theorem handleAiAction_navigate_bill (now : String) (st : AppState) (d : Option (List SaleItem)) :
    handleAiAction now st "NAVIGATE_BILL" d =
      Except.ok { st with
        cart := mergeCart st.cart (processCartItems st.inventory d),
        activeTab := "calculator" } := rfl

theorem handleAiAction_complete_sale (now : String) (st : AppState) (d : Option (List SaleItem)) :
    handleAiAction now st "COMPLETE_SALE" d =
      Except.ok { st with
        inventory :=
          (updateInventoryAndRecordSale now st.inventory (processCartItems st.inventory d)).1,
        sales := st.sales ++
          [(updateInventoryAndRecordSale now st.inventory (processCartItems st.inventory d)).2] }
    := rfl

theorem handleAiAction_other (now ty : String) (st : AppState) (d : Option (List SaleItem))
    (h1 : ¬(ty = "UPDATE_INVENTORY" ∨ ty = "RESTOCK")) (h2 : ty ≠ "RECORD_SALE")
    (h3 : ¬(ty = "ADD_TO_CART" ∨ ty = "UPDATE_CART"))
    (h4 : ¬(ty = "VIEW_BILL" ∨ ty = "NAVIGATE_BILL")) (h5 : ty ≠ "COMPLETE_SALE") :
    handleAiAction now st ty d = Except.ok st := by
  unfold handleAiAction
  rw [if_neg h1, if_neg h2, if_neg h3, if_neg h4, if_neg h5]

/-! ### C1: the quantity invariant -/

theorem applyChange_fst_nonneg (i : InventoryItem) (l : SaleItem)
    (hq : 0 ≤ i.quantity) (hl : 0 ≤ l.quantity) : 0 ≤ (applyChange i l).1 := by
  unfold applyChange
  by_cases h1 : l.changeType = "subtract"
  · simp only [h1, if_true, if_pos rfl]
    exact le_max_left 0 _
  · by_cases h2 : l.changeType = "set"
    · simp only [h1, h2, if_false, if_true, if_neg, if_pos rfl]
      exact hl
    · simp only [h1, h2, if_false, if_neg h1, if_neg h2]
      exact add_nonneg hq hl

theorem applyLineToList_nonneg (l : SaleItem) (hl : 0 ≤ l.quantity) :
    ∀ (inv inv2 : List InventoryItem) (c : ℚ), applyLineToList l inv = some (inv2, c) →
      (∀ i ∈ inv, 0 ≤ i.quantity) → ∀ i ∈ inv2, 0 ≤ i.quantity := by
  intro inv
  induction inv with
  | nil => intro inv2 c h; exact absurd h (by simp [applyLineToList])
  | cons i rest ih =>
    intro inv2 c h hinv
    by_cases hm : invMatch l.name i = true
    · simp only [applyLineToList, hm, if_true, Option.some.injEq, Prod.mk.injEq] at h
      obtain ⟨h1, -⟩ := h
      subst h1
      intro j hj
      rcases List.mem_cons.1 hj with rfl | hj
      · exact applyChange_fst_nonneg i l (hinv i (List.mem_cons_self i rest)) hl
      · exact hinv j (List.mem_cons_of_mem i hj)
    · rcases hres : applyLineToList l rest with _ | ⟨rest2, c2⟩
      · simp [applyLineToList, hm, hres] at h
      · simp only [applyLineToList, hm, hres, if_false, Option.some.injEq, Prod.mk.injEq] at h
        obtain ⟨rfl, -⟩ := h
        intro j hj
        rcases List.mem_cons.1 hj with rfl | hj
        · exact hinv j (List.mem_cons_self j rest)
        · exact ih rest2 c hres (fun k hk => hinv k (List.mem_cons_of_mem i hk)) j hj

theorem applyInventoryLine_nonneg (now : String) (invt : List InventoryItem × ℚ) (l : SaleItem)
    (hinv : ∀ i ∈ invt.1, 0 ≤ i.quantity) (hl : 0 ≤ l.quantity) :
    ∀ i ∈ (applyInventoryLine now invt l).1, 0 ≤ i.quantity := by
  rcases h : applyLineToList l invt.1 with _ | ⟨inv2, c⟩
  · by_cases hs : l.changeType = "subtract"
    · simp only [applyInventoryLine, h, hs, if_pos rfl]
      exact hinv
    · simp only [applyInventoryLine, h, if_neg hs]
      intro j hj
      rcases List.mem_append.1 hj with hj | hj
      · exact hinv j hj
      · rw [List.mem_singleton.1 hj]
        exact hl
  · simp only [applyInventoryLine, h]
    exact applyLineToList_nonneg l hl invt.1 inv2 c h hinv

theorem foldl_applyInventoryLine_nonneg (now : String) :
    ∀ (items : List SaleItem) (invt : List InventoryItem × ℚ),
      (∀ i ∈ invt.1, 0 ≤ i.quantity) → (∀ l ∈ items, 0 ≤ l.quantity) →
      ∀ i ∈ (items.foldl (applyInventoryLine now) invt).1, 0 ≤ i.quantity
  | [], _, hinv, _ => hinv
  | l :: ls, invt, hinv, hls => by
    rw [List.foldl_cons]
    exact foldl_applyInventoryLine_nonneg now ls (applyInventoryLine now invt l)
      (applyInventoryLine_nonneg now invt l hinv (hls l (List.mem_cons_self l ls)))
      (fun k hk => hls k (List.mem_cons_of_mem l hk))

theorem sellLine_nonneg (l : SaleItem) :
    ∀ (inv inv2 : List InventoryItem) (p : ℚ), sellLine l inv = some (inv2, p) →
      (∀ i ∈ inv, 0 ≤ i.quantity) → ∀ i ∈ inv2, 0 ≤ i.quantity := by
  intro inv
  induction inv with
  | nil => intro inv2 p h; exact absurd h (by simp [sellLine])
  | cons i rest ih =>
    intro inv2 p h hinv
    by_cases hm : invMatchOneWay l.name i = true
    · simp only [sellLine, hm, if_true, Option.some.injEq, Prod.mk.injEq] at h
      obtain ⟨h1, -⟩ := h
      subst h1
      intro j hj
      rcases List.mem_cons.1 hj with rfl | hj
      · exact le_max_left 0 _
      · exact hinv j (List.mem_cons_of_mem i hj)
    · rcases hres : sellLine l rest with _ | ⟨rest2, p2⟩
      · simp [sellLine, hm, hres] at h
      · simp only [sellLine, hm, hres, if_false, Option.some.injEq, Prod.mk.injEq] at h
        obtain ⟨rfl, -⟩ := h
        intro j hj
        rcases List.mem_cons.1 hj with rfl | hj
        · exact hinv j (List.mem_cons_self j rest)
        · exact ih rest2 p hres (fun k hk => hinv k (List.mem_cons_of_mem i hk)) j hj

theorem sellItems_nonneg :
    ∀ (items : List SaleItem) (inv : List InventoryItem),
      (∀ i ∈ inv, 0 ≤ i.quantity) → ∀ i ∈ (sellItems inv items).1, 0 ≤ i.quantity
  | [], _, h => h
  | l :: ls, inv, h => by
    rcases hsl : sellLine l inv with _ | ⟨inv2, p⟩
    · simp only [sellItems, hsl]
      exact sellItems_nonneg ls inv h
    · simp only [sellItems, hsl]
      exact sellItems_nonneg ls inv2 (sellLine_nonneg l inv inv2 p hsl h)

theorem quickRestockGo_nonneg (now nm : String) :
    ∀ inv : List InventoryItem, (∀ i ∈ inv, 0 ≤ i.quantity) →
      ∀ i ∈ (quickRestockGo now nm inv).1, 0 ≤ i.quantity
  | [], _ => by simp [quickRestockGo]
  | i :: rest, h => by
    have hrest := quickRestockGo_nonneg now nm rest
      (fun k hk => h k (List.mem_cons_of_mem i hk))
    by_cases hn : i.name = nm
    · simp only [quickRestockGo, hn, if_pos rfl]
      intro j hj
      rcases List.mem_cons.1 hj with rfl | hj
      · exact add_nonneg (h i (List.mem_cons_self i rest)) (by norm_num)
      · exact hrest j hj
    · simp only [quickRestockGo, if_neg hn]
      intro j hj
      rcases List.mem_cons.1 hj with rfl | hj
      · exact h j (List.mem_cons_self j rest)
      · exact hrest j hj

theorem handleAiAction_nonneg (now ty : String) (st : AppState) (d : Option (List SaleItem))
    (st2 : AppState)
    (hgood : (ty = "UPDATE_INVENTORY" ∨ ty = "RESTOCK") → ∀ l ∈ d.getD [], 0 ≤ l.quantity)
    (hst : ∀ i ∈ st.inventory, 0 ≤ i.quantity)
    (hok : handleAiAction now st ty d = Except.ok st2) :
    ∀ i ∈ st2.inventory, 0 ≤ i.quantity := by
  by_cases h1 : ty = "UPDATE_INVENTORY" ∨ ty = "RESTOCK"
  · have hgd := hgood h1
    cases d with
    | none =>
      rcases h1 with rfl | rfl
      · rw [handleAiAction_update_inventory_none] at hok
        exact absurd hok (by simp)
      · rw [handleAiAction_restock_none] at hok
        exact absurd hok (by simp)
    | some items =>
      have hgd2 : ∀ l ∈ items, 0 ≤ l.quantity := hgd
      have hbody : st2.inventory =
          (items.foldl (applyInventoryLine now) (st.inventory, 0)).1 := by
        rcases h1 with rfl | rfl
        · rw [handleAiAction_update_inventory] at hok
          rw [← Except.ok.inj hok]
        · rw [handleAiAction_restock, handleAiAction_update_inventory] at hok
          rw [← Except.ok.inj hok]
      rw [hbody]
      exact foldl_applyInventoryLine_nonneg now items (st.inventory, 0) hst hgd2
  · by_cases h2 : ty = "RECORD_SALE"
    · subst h2
      cases d with
      | none =>
        rw [handleAiAction_record_sale_none] at hok
        exact absurd hok (by simp)
      | some items =>
        rw [handleAiAction_record_sale] at hok
        rw [← Except.ok.inj hok]
        exact sellItems_nonneg items st.inventory hst
    · by_cases h3 : ty = "ADD_TO_CART" ∨ ty = "UPDATE_CART"
      · rcases h3 with rfl | rfl
        · rw [handleAiAction_add_to_cart] at hok
          rw [← Except.ok.inj hok]
          exact hst
        · rw [handleAiAction_update_cart] at hok
          rw [← Except.ok.inj hok]
          exact hst
      · by_cases h4 : ty = "VIEW_BILL" ∨ ty = "NAVIGATE_BILL"
        · rcases h4 with rfl | rfl
          · rw [handleAiAction_view_bill] at hok
            rw [← Except.ok.inj hok]
            exact hst
          · rw [handleAiAction_navigate_bill] at hok
            rw [← Except.ok.inj hok]
            exact hst
        · by_cases h5 : ty = "COMPLETE_SALE"
          · subst h5
            rw [handleAiAction_complete_sale] at hok
            rw [← Except.ok.inj hok]
            exact sellItems_nonneg _ st.inventory hst
          · rw [handleAiAction_other now ty st d h1 h2 h3 h4 h5] at hok
            rw [← Except.ok.inj hok]
            exact hst

theorem stepEvent_nonneg (now : String) (st : AppState) (e : AppEvent)
    (hgood : goodEvent e = true) (hst : ∀ i ∈ st.inventory, 0 ≤ i.quantity) :
    ∀ i ∈ (stepEvent now st e).inventory, 0 ≤ i.quantity := by
  cases e with
  | ai ty d =>
    cases hd : handleAiAction now st ty d with
    | error u =>
      simp only [stepEvent, hd]
      exact hst
    | ok st2 =>
      simp only [stepEvent, hd]
      refine handleAiAction_nonneg now ty st d st2 ?_ hst hd
      intro hty
      simp only [goodEvent] at hgood
      rw [if_pos hty] at hgood
      intro l hl
      exact of_decide_eq_true (List.all_eq_true.1 hgood l hl)
  | quickRestock nm =>
    simp only [stepEvent, handleQuickRestock]
    exact quickRestockGo_nonneg now nm st.inventory hst

theorem runEvents_nonneg (now : String) :
    ∀ (es : List AppEvent) (st : AppState), (∀ e ∈ es, goodEvent e = true) →
      (∀ i ∈ st.inventory, 0 ≤ i.quantity) →
      ∀ i ∈ (runEvents now st es).inventory, 0 ≤ i.quantity
  | [], _, _, hst => hst
  | e :: es, st, hes, hst => by
    show ∀ i ∈ (runEvents now (stepEvent now st e) es).inventory, 0 ≤ i.quantity
    exact runEvents_nonneg now es (stepEvent now st e)
      (fun k hk => hes k (List.mem_cons_of_mem e hk))
      (stepEvent_nonneg now st e (hes e (List.mem_cons_self e es)) hst)

/-- C1 counterexample: a dispatched UPDATE_INVENTORY record whose line uses
changeType "set" with quantity -3 drives the resolved item's quantity to -3,
so the inventory does not satisfy quantity >= 0 after this dispatch. -/
theorem c1_counterexample :
    ((stepEvent "t" stMilk
        (AppEvent.ai "UPDATE_INVENTORY" (some [⟨"Milk", -3, 0, "set"⟩]))).inventory.map
      (fun i => i.quantity) = [-3]) ∧
    ¬ ∀ i ∈ (stepEvent "t" stMilk
        (AppEvent.ai "UPDATE_INVENTORY" (some [⟨"Milk", -3, 0, "set"⟩]))).inventory,
      0 ≤ i.quantity := by decide

/-- C1 (corrected): provided every UPDATE_INVENTORY / RESTOCK line carries a
nonnegative quantity, every inventory item has quantity >= 0 after any
sequence of dispatched action records and quick restocks, starting from any
state whose inventory satisfies the invariant. -/
theorem c1_nonneg_amended (now : String) (st : AppState) (es : List AppEvent)
    (hes : ∀ e ∈ es, goodEvent e = true) (hst : ∀ i ∈ st.inventory, 0 ≤ i.quantity) :
    ∀ i ∈ (runEvents now st es).inventory, 0 ≤ i.quantity :=
  runEvents_nonneg now es st hes hst

/-- Witness for c1_nonneg_amended: a concrete "set" to 4 followed by a quick
restock keeps every quantity nonnegative. -/
theorem c1_nonneg_amended_witness :
    ((runEvents "t" stMilk
        [AppEvent.ai "UPDATE_INVENTORY" (some [⟨"Milk", 4, 0, "set"⟩]),
         AppEvent.quickRestock "Milk"]).inventory.all
      fun i => decide (0 ≤ i.quantity)) = true := by
  have h := c1_nonneg_amended "t" stMilk
    [AppEvent.ai "UPDATE_INVENTORY" (some [⟨"Milk", 4, 0, "set"⟩]),
     AppEvent.quickRestock "Milk"] (by decide) (by decide)
  exact List.all_eq_true.2 fun i hi => decide_eq_true (h i hi)

/-! ### C7: empty / malformed payloads -/

/-- C7 counterexample: dispatching an UPDATE_INVENTORY record whose payload
has no items array dereferences it and throws instead of degrading to a
no-op. -/
theorem c7_counterexample :
    handleAiAction "t" stMilk "UPDATE_INVENTORY" none = Except.error () := rfl

/-- C7 (corrected): only the cart-path kinds tolerate a missing items
payload: ADD_TO_CART and UPDATE_CART leave the state unchanged, VIEW_BILL and
NAVIGATE_BILL only switch the active view, COMPLETE_SALE still appends one
empty SaleRecord with total 0, and unknown kinds are no-ops; but
UPDATE_INVENTORY, RESTOCK and RECORD_SALE throw on a missing items payload. -/
theorem c7_malformed_amended (now : String) (st : AppState) :
    handleAiAction now st "UPDATE_INVENTORY" none = Except.error () ∧
    handleAiAction now st "RESTOCK" none = Except.error () ∧
    handleAiAction now st "RECORD_SALE" none = Except.error () ∧
    handleAiAction now st "ADD_TO_CART" none = Except.ok st ∧
    handleAiAction now st "UPDATE_CART" none = Except.ok st ∧
    handleAiAction now st "VIEW_BILL" none = Except.ok { st with activeTab := "calculator" } ∧
    handleAiAction now st "NAVIGATE_BILL" none =
      Except.ok { st with activeTab := "calculator" } ∧
    handleAiAction now st "COMPLETE_SALE" none =
      Except.ok { st with
        sales := st.sales ++ [{ id := now, date := now, items := [], totalAmount := 0 }] } ∧
    handleAiAction now st "NO_SUCH_KIND" none = Except.ok st :=
  ⟨rfl, rfl, rfl, rfl, rfl, rfl, rfl, rfl, rfl⟩

/-! ### C8: cart invariants -/

theorem map_name_of_preserving (f : SaleItem → SaleItem) (hf : ∀ l, (f l).name = l.name) :
    ∀ cart : List SaleItem, (cart.map f).map (fun l => l.name) = cart.map fun l => l.name
  | [] => rfl
  | p :: rest => by simp [hf p, map_name_of_preserving f hf rest]

theorem bumpFirst_names (nm : String) (dq : ℚ) :
    ∀ c : List SaleItem, (bumpFirst nm dq c).map (fun l => l.name) = c.map fun l => l.name
  | [] => rfl
  | p :: rest => by
    by_cases h : p.name = nm
    · simp [bumpFirst, h]
    · simp [bumpFirst, h, bumpFirst_names nm dq rest]

theorem bumpFirst_pos (nm : String) (dq : ℚ) (hdq : 0 < dq) :
    ∀ c : List SaleItem, (∀ l ∈ c, 0 < l.quantity) → ∀ l ∈ bumpFirst nm dq c, 0 < l.quantity
  | [], _ => by simp [bumpFirst]
  | p :: rest, h => by
    by_cases hn : p.name = nm
    · simp only [bumpFirst, hn, if_pos rfl]
      intro l hl
      rcases List.mem_cons.1 hl with rfl | hl
      · exact add_pos (h p (List.mem_cons_self p rest)) hdq
      · exact h l (List.mem_cons_of_mem p hl)
    · simp only [bumpFirst, if_neg hn]
      intro l hl
      rcases List.mem_cons.1 hl with rfl | hl
      · exact h l (List.mem_cons_self l rest)
      · exact bumpFirst_pos nm dq hdq rest (fun k hk => h k (List.mem_cons_of_mem p hk)) l hl

theorem any_name_eq_false {c : List SaleItem} {nm : String}
    (h : c.any (fun p => p.name == nm) = false) : nm ∉ c.map fun l => l.name := by
  intro hmem
  rcases List.mem_map.1 hmem with ⟨l, hl, hn⟩
  have h2 : c.any (fun p => p.name == nm) = true :=
    List.any_eq_true.2 ⟨l, hl, by simp [hn]⟩
  rw [h2] at h
  exact Bool.noConfusion h

theorem mergeCart_wf :
    ∀ (items cart : List SaleItem), cartWF cart → (∀ l ∈ items, 0 < l.quantity) →
      cartWF (mergeCart cart items)
  | [], _, hc, _ => hc
  | item :: rest, cart, hc, hp => by
    by_cases hx : cart.any (fun p => p.name == item.name) = true
    · rw [mergeCart, if_pos hx]
      exact mergeCart_wf rest (bumpFirst item.name item.quantity cart)
        ⟨by rw [bumpFirst_names]; exact hc.1,
         bumpFirst_pos item.name item.quantity (hp item (List.mem_cons_self item rest))
           cart hc.2⟩
        (fun k hk => hp k (List.mem_cons_of_mem item hk))
    · rw [mergeCart, if_neg hx]
      refine mergeCart_wf rest (cart ++ [item]) ⟨?_, ?_⟩
        (fun k hk => hp k (List.mem_cons_of_mem item hk))
      · have hnm : item.name ∉ cart.map fun l => l.name :=
          any_name_eq_false (Bool.eq_false_iff.2 hx)
        rw [List.map_append]
        simp [List.nodup_append, hc.1, hnm]
      · intro l hl
        rcases List.mem_append.1 hl with hl | hl
        · exact hc.2 l hl
        · rw [List.mem_singleton.1 hl]
          exact hp item (List.mem_cons_self item rest)

theorem updateQty_wf (cart : List SaleItem) (nm : String) (d : ℚ) (hc : cartWF cart) :
    cartWF (updateQty cart nm d) := by
  have hnames : (updateQty cart nm d).map (fun l => l.name) = cart.map fun l => l.name := by
    unfold updateQty
    exact map_name_of_preserving _ (fun l => by split_ifs <;> rfl) cart
  refine ⟨by rw [hnames]; exact hc.1, ?_⟩
  intro l hl
  unfold updateQty at hl
  obtain ⟨x, hx, rfl⟩ := List.mem_map.1 hl
  by_cases h1 : x.name = nm
  · by_cases h2 : x.quantity + d ≤ 0
    · simp only [if_pos h1, if_pos h2]
      exact hc.2 x hx
    · simp only [if_pos h1, if_neg h2]
      exact not_le.1 h2
  · simp only [if_neg h1]
    exact hc.2 x hx

theorem addToCart_wf (cart : List SaleItem) (it : InventoryItem) (q : ℚ)
    (hc : cartWF cart) (hq : 0 < q) : cartWF (addToCart cart it q) := by
  unfold addToCart
  by_cases hx : cart.any (fun i => i.name == it.name) = true
  · rw [if_pos hx]
    refine ⟨?_, ?_⟩
    · rw [map_name_of_preserving _ (fun l => by split_ifs <;> rfl) cart]
      exact hc.1
    · intro l hl
      obtain ⟨x, hx2, rfl⟩ := List.mem_map.1 hl
      by_cases h1 : x.name = it.name
      · simp only [if_pos h1]
        exact add_pos (hc.2 x hx2) hq
      · simp only [if_neg h1]
        exact hc.2 x hx2
  · rw [if_neg hx]
    refine ⟨?_, ?_⟩
    · have hnm : it.name ∉ cart.map fun l => l.name := by
        intro hmem
        rcases List.mem_map.1 hmem with ⟨l, hl, hn⟩
        exact hx (List.any_eq_true.2 ⟨l, hl, by simp [hn]⟩)
      rw [List.map_append]
      simp [List.nodup_append, hc.1, hnm]
    · intro l hl
      rcases List.mem_append.1 hl with hl | hl
      · exact hc.2 l hl
      · rw [List.mem_singleton.1 hl]
        exact hq

theorem removeItem_wf (cart : List SaleItem) (nm : String) (hc : cartWF cart) :
    cartWF (removeItem cart nm) := by
  have hsub : List.Sublist (removeItem cart nm) cart := List.filter_sublist cart
  refine ⟨List.Nodup.sublist (List.Sublist.map (fun l => l.name) hsub) hc.1, ?_⟩
  intro l hl
  exact hc.2 l (List.Sublist.subset hsub hl)

theorem updateQty_noop :
    ∀ (cart : List SaleItem) (nm : String) (d : ℚ),
      (∀ l ∈ cart, l.name = nm → l.quantity + d ≤ 0) → updateQty cart nm d = cart
  | [], _, _, _ => rfl
  | p :: rest, nm, d, h => by
    have ht := updateQty_noop rest nm d (fun l hl => h l (List.mem_cons_of_mem p hl))
    unfold updateQty at ht ⊢
    simp only [List.map_cons, ht]
    by_cases hn : p.name = nm
    · rw [if_pos hn, if_pos (h p (List.mem_cons_self p rest) hn)]
    · rw [if_neg hn]

/-- C8 counterexample: `updateQty` with a delta that would bring the only
"A" line from 1 to 0 keeps the line (with its old quantity) instead of
removing it, and the cart merge retains an incoming line whose quantity is
0 instead of dropping it. -/
theorem c8_counterexample :
    updateQty [⟨"A", 1, 10, ""⟩] "A" (-1) = [⟨"A", 1, 10, ""⟩] ∧
    (⟨"A", 1, 10, ""⟩ : SaleItem).quantity + (-1) ≤ 0 ∧
    mergeCart [] [⟨"B", 0, 5, ""⟩] = [⟨"B", 0, 5, ""⟩] ∧
    ¬ ∀ l ∈ mergeCart ([] : List SaleItem) [⟨"B", 0, 5, ""⟩], 0 < l.quantity := by decide

theorem mergeCart_nodup_names :
    ∀ (items cart : List SaleItem), (cart.map fun l => l.name).Nodup →
      ((mergeCart cart items).map fun l => l.name).Nodup
  | [], _, hu => hu
  | item :: rest, cart, hu => by
    by_cases hx : cart.any (fun p => p.name == item.name) = true
    · rw [mergeCart, if_pos hx]
      exact mergeCart_nodup_names rest (bumpFirst item.name item.quantity cart)
        (by rw [bumpFirst_names]; exact hu)
    · rw [mergeCart, if_neg hx]
      refine mergeCart_nodup_names rest (cart ++ [item]) ?_
      have hnm : item.name ∉ cart.map fun l => l.name :=
        any_name_eq_false (Bool.eq_false_iff.2 hx)
      rw [List.map_append]
      simp [List.nodup_append, hu, hnm]

theorem addToCart_nodup_names (cart : List SaleItem) (it : InventoryItem) (q : ℚ)
    (hu : (cart.map fun l => l.name).Nodup) :
    ((addToCart cart it q).map fun l => l.name).Nodup := by
  unfold addToCart
  by_cases hx : cart.any (fun i => i.name == it.name) = true
  · rw [if_pos hx, map_name_of_preserving _ (fun l => by split_ifs <;> rfl) cart]
    exact hu
  · rw [if_neg hx]
    have hnm : it.name ∉ cart.map fun l => l.name := by
      intro hmem
      rcases List.mem_map.1 hmem with ⟨l, hl, hn⟩
      exact hx (List.any_eq_true.2 ⟨l, hl, by simp [hn]⟩)
    rw [List.map_append]
    simp [List.nodup_append, hu, hnm]

theorem updateQty_names (cart : List SaleItem) (nm : String) (d : ℚ) :
    (updateQty cart nm d).map (fun l => l.name) = cart.map fun l => l.name := by
  unfold updateQty
  exact map_name_of_preserving _ (fun l => by split_ifs <;> rfl) cart

theorem removeItem_nodup_names (cart : List SaleItem) (nm : String)
    (hu : (cart.map fun l => l.name).Nodup) :
    ((removeItem cart nm).map fun l => l.name).Nodup :=
  List.Nodup.sublist (List.Sublist.map (fun l => l.name) (List.filter_sublist cart)) hu

theorem applyCartEvent_nodup_names (cart : List SaleItem) (e : CartEvent)
    (hu : (cart.map fun l => l.name).Nodup) :
    ((applyCartEvent cart e).map fun l => l.name).Nodup := by
  cases e with
  | merge items => exact mergeCart_nodup_names items cart hu
  | update nm d =>
    show ((updateQty cart nm d).map fun l => l.name).Nodup
    rw [updateQty_names]
    exact hu
  | add it q => exact addToCart_nodup_names cart it q hu
  | remove nm => exact removeItem_nodup_names cart nm hu
  | clear => exact List.nodup_nil

theorem runCartEvents_nodup_names :
    ∀ (es : List CartEvent) (cart : List SaleItem), (cart.map fun l => l.name).Nodup →
      ((runCartEvents cart es).map fun l => l.name).Nodup
  | [], _, hu => hu
  | e :: es, cart, hu => by
    show ((runCartEvents (applyCartEvent cart e) es).map fun l => l.name).Nodup
    exact runCartEvents_nodup_names es (applyCartEvent cart e)
      (applyCartEvent_nodup_names cart e hu)

theorem applyCartEvent_wf (cart : List SaleItem) (e : CartEvent)
    (hc : cartWF cart) (hg : goodCartEvent e = true) : cartWF (applyCartEvent cart e) := by
  cases e with
  | merge items =>
    simp only [goodCartEvent] at hg
    refine mergeCart_wf items cart hc fun l hl => ?_
    exact of_decide_eq_true (List.all_eq_true.1 hg l hl)
  | update nm d => exact updateQty_wf cart nm d hc
  | add it q =>
    simp only [goodCartEvent] at hg
    exact addToCart_wf cart it q hc (of_decide_eq_true hg)
  | remove nm => exact removeItem_wf cart nm hc
  | clear => exact ⟨List.nodup_nil, fun l hl => absurd hl (List.not_mem_nil l)⟩

theorem runCartEvents_wf :
    ∀ (es : List CartEvent) (cart : List SaleItem), cartWF cart →
      (∀ e ∈ es, goodCartEvent e = true) → cartWF (runCartEvents cart es)
  | [], _, hc, _ => hc
  | e :: es, cart, hc, hg => by
    show cartWF (runCartEvents (applyCartEvent cart e) es)
    exact runCartEvents_wf es (applyCartEvent cart e)
      (applyCartEvent_wf cart e hc (hg e (List.mem_cons_self e es)))
      (fun k hk => hg k (List.mem_cons_of_mem e hk))

/-- C8 (corrected): in every cart reachable from the empty cart by cart
operations (AI merge, quantity update, add, removal, clear) there is at most
one CartLine per distinct name, regardless of the quantities the operations
carry; when moreover every merged or added quantity is positive, every
reachable cart also retains only lines with positive quantity; but an update
whose delta would bring a line's quantity to 0 or below leaves the cart
unchanged (the line is kept with its old quantity, not removed), and merged
lines with nonpositive quantities are retained as-is. -/
theorem c8_cart_invariant_amended (es : List CartEvent) (cart : List SaleItem)
    (nm : String) (d : ℚ) :
    ((runCartEvents [] es).map fun l => l.name).Nodup ∧
    ((∀ e ∈ es, goodCartEvent e = true) → cartWF (runCartEvents [] es)) ∧
    ((∀ l ∈ cart, l.name = nm → l.quantity + d ≤ 0) → updateQty cart nm d = cart) :=
  ⟨runCartEvents_nodup_names es [] List.nodup_nil,
   fun hg => runCartEvents_wf es []
     ⟨List.nodup_nil, fun l hl => absurd hl (List.not_mem_nil l)⟩ hg,
   updateQty_noop cart nm d⟩

/-- Witness for c8_cart_invariant_amended: merging a positive line and a
nonpositive line, updating, and adding from the catalog yields a cart that
is duplicate-free, and the all-positive run is fully well-formed. -/
theorem c8_cart_invariant_amended_witness :
    cartWF (runCartEvents []
      [CartEvent.merge [⟨"A", 2, 10, ""⟩, ⟨"B", 1, 5, ""⟩], CartEvent.add invAmul 1]) :=
  (c8_cart_invariant_amended
    [CartEvent.merge [⟨"A", 2, 10, ""⟩, ⟨"B", 1, 5, ""⟩], CartEvent.add invAmul 1]
    [] "A" 1).2.1 (by decide)

/-! ### C9: cart merge adds quantities per name -/

theorem qtyByName_append (nm : String) :
    ∀ a b : List SaleItem, qtyByName nm (a ++ b) = qtyByName nm a + qtyByName nm b
  | [], b => by simp [qtyByName]
  | p :: rest, b => by
    show (if p.name = nm then p.quantity else 0) + qtyByName nm (rest ++ b) =
      (if p.name = nm then p.quantity else 0) + qtyByName nm rest + qtyByName nm b
    rw [qtyByName_append nm rest b, add_assoc]

theorem qtyByName_bumpFirst (nm nm0 : String) (d : ℚ) :
    ∀ c : List SaleItem, c.any (fun p => p.name == nm0) = true →
      qtyByName nm (bumpFirst nm0 d c) = qtyByName nm c + (if nm0 = nm then d else 0)
  | [], h => by simp at h
  | p :: rest, h => by
    by_cases hn : p.name = nm0
    · simp only [bumpFirst, hn, if_pos rfl, qtyByName]
      by_cases hm : nm0 = nm
      · rw [if_pos hm, if_pos hm, if_pos hm]
        ring
      · rw [if_neg hm, if_neg hm, if_neg hm]
        ring
    · have hrest : rest.any (fun p => p.name == nm0) = true := by
        simp only [List.any_cons, Bool.or_eq_true, beq_iff_eq] at h
        rcases h with h | h
        · exact absurd h hn
        · exact h
      simp only [bumpFirst, if_neg hn, qtyByName,
        qtyByName_bumpFirst nm nm0 d rest hrest]
      ring

theorem mergeCart_qtyByName (nm : String) :
    ∀ (items cart : List SaleItem),
      qtyByName nm (mergeCart cart items) = qtyByName nm cart + qtyByName nm items
  | [], cart => by simp [mergeCart, qtyByName]
  | item :: rest, cart => by
    by_cases hx : cart.any (fun p => p.name == item.name) = true
    · rw [mergeCart, if_pos hx, mergeCart_qtyByName nm rest,
        qtyByName_bumpFirst nm item.name item.quantity cart hx, qtyByName]
      by_cases hm : item.name = nm
      · rw [if_pos hm]
        ring
      · rw [if_neg hm]
        ring
    · rw [mergeCart, if_neg hx, mergeCart_qtyByName nm rest, qtyByName_append, qtyByName,
        qtyByName, qtyByName]
      ring

/-- C9 (confirmed): cart merge adds quantities per item name — for every name
the merged cart carries the sum of the quantities the two sides carry — an
incoming line with a fresh name is appended as a new line, and the two orders
of the worked example agree: merging [(A,2),(B,1)] then [(A,1)] into an empty
cart equals merging [(A,1)] into the pre-existing cart [(A,2),(B,1)], namely
[(A,3),(B,1)]. -/
theorem c9_merge_additive :
    (∀ (cart items : List SaleItem) (nm : String),
      qtyByName nm (mergeCart cart items) = qtyByName nm cart + qtyByName nm items) ∧
    mergeCart (mergeCart [] [⟨"A", 2, 0, ""⟩, ⟨"B", 1, 0, ""⟩]) [⟨"A", 1, 0, ""⟩] =
      [⟨"A", 3, 0, ""⟩, ⟨"B", 1, 0, ""⟩] ∧
    mergeCart [⟨"A", 2, 0, ""⟩, ⟨"B", 1, 0, ""⟩] [⟨"A", 1, 0, ""⟩] =
      [⟨"A", 3, 0, ""⟩, ⟨"B", 1, 0, ""⟩] ∧
    (∀ (cart : List SaleItem) (item : SaleItem),
      cart.any (fun p => p.name == item.name) = false →
        mergeCart cart [item] = cart ++ [item]) := by
  refine ⟨fun cart items nm => mergeCart_qtyByName nm items cart, by decide, by decide, ?_⟩
  intro cart item hx
  rw [mergeCart, if_neg (by simp [hx])]
  rfl

/-- Witness for c9_merge_additive: an incoming line with a fresh name is
appended to the cart. -/
theorem c9_merge_additive_witness :
    mergeCart [⟨"C", 1, 2, ""⟩] [⟨"D", 4, 5, ""⟩] =
      [⟨"C", 1, 2, ""⟩] ++ [⟨"D", 4, 5, ""⟩] :=
  c9_merge_additive.2.2.2 [⟨"C", 1, 2, ""⟩] ⟨"D", 4, 5, ""⟩ (by decide)
